import Mathlib

/-!
Shallow embedding of the ChatBot-RAG repository (src/app.py and
src/data_ingestion.py) and proofs about its claims.

External collaborators (the OpenAI embedding endpoint, the Pinecone index,
the Gemini generation endpoint) are modelled as explicit function arguments
returning `Except String _`: an `Except.error` models the Python call raising
an exception, an `Except.ok` models a successful network round trip.
Embedding vectors are lists over an arbitrary scalar type `α` (the Python
code only ever passes the float lists through; it never computes on the
numbers, so the scalar type is irrelevant to every claim).
`st.error` / `print` reporting is a UI side effect outside the data model and
is not represented; what is represented is the value returned to the caller.
-/

namespace ChatBotRAG

/-- Metadata attached to one stored vector / one retrieved match:
the `{"question": ..., "answer": ...}` dict built in data_ingestion.py
(prepare_vectors) and returned by Pinecone with `include_metadata=True`. -/
structure Metadata where
  question : String
  answer : String
deriving DecidableEq

/-- One retrieved match from the Pinecone index (id plus its metadata).
Numeric similarity scores are external float data no claim depends on,
so they are not modelled. -/
structure Match where
  id : String
  metadata : Metadata
deriving DecidableEq

/-- One chat turn of app.py: a `{"role": ..., "content": ...}` dict kept in
`st.session_state.messages`. -/
structure Turn where
  role : String
  content : String
deriving DecidableEq

/-- Result dict of a Pinecone query, modelled as an association list from
string keys to match lists: `query_pinecone` either returns the index's
reply verbatim or the literal dict `{"matches": []}`, and
`generate_response` accesses the key `"matches"` in it. -/
abbrev QueryDict := List (String × List Match)

namespace App

/-- Embedding model name constant of app.py. -/
def EMBEDDING_MODEL : String := "text-embedding-3-small"

/-- Pinecone index name constant of app.py. -/
def PINECONE_INDEX_NAME : String := "ukmegashop-faq"

/-- Embeds `get_embeddings` of app.py (lines 31-38): call the embedding
endpoint; on success return the embedding, on an exception report it
(`st.error`, a UI effect) and return the empty list `[]`. -/
def get_embeddings {α : Type} (embedCall : String → Except String (List α))
    (text : String) : List α :=
  match embedCall text with
  | Except.ok v => v
  | Except.error _ => []

/-- Embeds `query_pinecone` of app.py (lines 41-51): query the index with
the given embedding and `top_k`; on success return the index's reply
verbatim, on an exception report it and return `{"matches": []}`. -/
def query_pinecone {α : Type}
    (idxQuery : List α → Nat → Except String QueryDict)
    (query_embedding : List α) (top_k : Nat) : QueryDict :=
  match idxQuery query_embedding top_k with
  | Except.ok r => r
  | Except.error _ => [("matches", [])]

/-- Serialization of the retrieved match list interpolated into the prompt
f-string of app.py line 58 (Python's `str` of the match list); the claims
only require that this serialized text appears verbatim in the prompt. -/
def render_matches (ms : List Match) : String :=
  "[" ++ String.intercalate ", "
    (ms.map fun m =>
      "id=" ++ m.id ++ ", question=" ++ m.metadata.question
        ++ ", answer=" ++ m.metadata.answer) ++ "]"

/-- Prompt construction of app.py lines 56-60: the f-string framing the
persona and embedding the user query and the serialized matches. -/
def build_prompt (input_text : String) (ms : List Match) : String :=
  "You are a customer support chatbot for UK Mega Shop. User query: "
    ++ input_text ++ ", Retrieved Context: " ++ render_matches ms
    ++ ". Now answer the user query using the context."

/-- Embeds `generate_response` of app.py (lines 54-69). The prompt is built
OUTSIDE the try block, so a missing `"matches"` key would raise an uncaught
KeyError, modelled as `none`. Inside the try block, a generation failure is
caught and replaced by the fixed apology string. -/
def generate_response (genCall : String → Except String String)
    (input_text : String) (context : QueryDict) : Option String :=
  match List.lookup "matches" context with
  | none => none
  | some ms =>
    match genCall (build_prompt input_text ms) with
    | Except.ok t => some t
    | Except.error _ => some "Sorry, I couldn't process your request at this time."

/-- Seed conversation appended at session start by app.py lines 85-88. -/
def initial_messages : List Turn :=
  [⟨"human", "Does the website offer Cash on Delivery (COD)"⟩,
   ⟨"ai", "Thanks for your query! Currently, we do not offer Cash on Delivery (COD) on our website. However, we are considering implementing it in the future."⟩]

/-- Embeds the per-user-turn body of `main` in app.py (lines 96-158): append
the user turn, embed the input, and — only when the embedding is nonempty
(Python `if query_embedding:`) — query the index, generate a response and
append the assistant turn. A `none` result models an uncaught exception
(only possible if the index reply lacks the `"matches"` key). -/
def processTurn {α : Type} (embedCall : String → Except String (List α))
    (idxQuery : List α → Nat → Except String QueryDict)
    (genCall : String → Except String String)
    (messages : List Turn) (user_input : String) : Option (List Turn) :=
  let messages := messages ++ [⟨"human", user_input⟩]
  let query_embedding := get_embeddings embedCall user_input
  if query_embedding.isEmpty then some messages
  else
    let query_result := query_pinecone idxQuery query_embedding 2
    match generate_response genCall user_input query_result with
    | none => none
    | some response => some (messages ++ [⟨"ai", response⟩])

/-- Number of assistant ("ai") turns in a conversation log. -/
def assistantCount (l : List Turn) : Nat :=
  (l.filter fun t => t.role == "ai").length

/-- Role invariant of the conversation log: the code only ever appends turns
whose role is `"human"` (the user role) or `"ai"` (the assistant role). -/
def roleOk (t : Turn) : Prop := t.role = "human" ∨ t.role = "ai"

instance (t : Turn) : Decidable (roleOk t) := by
  unfold roleOk; infer_instance

end App

namespace DataIngestion

/-- Embedding model name constant of data_ingestion.py. -/
def EMBEDDING_MODEL : String := "text-embedding-3-small"

/-- Index name constant of data_ingestion.py. -/
def INDEX_NAME : String := "ukmegashop-faq"

/-- Embedding dimension constant of data_ingestion.py. -/
def EMBEDDING_DIMENSION : Nat := 1536

/-- Embeds `get_embeddings` of data_ingestion.py (lines 19-31): it calls the
embedding endpoint and returns `response.data[0].embedding` with NO
try/except — an exception propagates to the caller unchanged. -/
def get_embeddings {α : Type} (embedCall : String → Except String (List α))
    (text : String) : Except String (List α) :=
  embedCall text

/-- One CSV row of the FAQ file, with its two required columns. -/
structure Row where
  Question : String
  Answer : String
deriving DecidableEq

/-- One vector record prepared for upsert by data_ingestion.py:
the `{"id": ..., "values": ..., "metadata": ...}` dict of lines 83-87. -/
structure Vector (α : Type) where
  id : String
  values : List α
  metadata : Metadata
deriving DecidableEq

/-- Embeds `create_pinecone_index` of data_ingestion.py (lines 33-44) over an
explicit model of the Pinecone service state (the list of existing index
names). The returned Bool records whether a create call was issued; the
create call's effect — adding the name to the service's list, per the
external interface contract — is applied to the state. -/
def create_pinecone_index (indexes : List String) : List String × Bool :=
  if INDEX_NAME ∉ indexes then (indexes ++ [INDEX_NAME], true)
  else (indexes, false)

/-- Loop body of `prepare_vectors` (data_ingestion.py lines 76-89),
index-explicit: for each row, embed its Question (via the ingestion
`get_embeddings`, so an embedding exception aborts the whole run) and build
the record `{"id": "qa_" ++ idx, "values": embedding, "metadata":
{"question": q, "answer": a}}`; rows are processed in order with
consecutive indexes. -/
def prepare_vectors_go {α : Type}
    (embedCall : String → Except String (List α)) :
    Nat → List Row → Except String (List (Vector α))
  | _, [] => Except.ok []
  | idx, row :: rest =>
    match get_embeddings embedCall row.Question with
    | Except.error e => Except.error e
    | Except.ok embedding =>
      match prepare_vectors_go embedCall (idx + 1) rest with
      | Except.error e => Except.error e
      | Except.ok tail =>
        Except.ok ({ id := "qa_" ++ Nat.repr idx, values := embedding,
                     metadata := ⟨row.Question, row.Answer⟩ } :: tail)

/-- Embeds `prepare_vectors` of data_ingestion.py (lines 66-89): iterate the
dataframe rows with their positional index (a freshly loaded CSV has the
default RangeIndex 0..N-1) starting at 0. -/
def prepare_vectors {α : Type}
    (embedCall : String → Except String (List α)) (df : List Row) :
    Except String (List (Vector α)) :=
  prepare_vectors_go embedCall 0 df

end DataIngestion

/-! Injectivity of the decimal rendering `Nat.repr`, needed for the
uniqueness of the `"qa_" ++ idx` record ids. `Nat.toDigitsCore` is
fuel-based, so we first relate it to a fuel-free digit spec, then decode. -/

/-- Fuel-free spec of the decimal digit list of a natural number. -/
def reprSpecDigits (n : Nat) : List Char :=
  if n < 10 then [Nat.digitChar n]
  else reprSpecDigits (n / 10) ++ [Nat.digitChar (n % 10)]
decreasing_by exact Nat.div_lt_self (by omega) (by omega)

lemma toDigitsCore_eq_reprSpecDigits :
    ∀ (fuel n : Nat) (ds : List Char), n < fuel →
      Nat.toDigitsCore 10 fuel n ds = reprSpecDigits n ++ ds := by
  intro fuel
  induction fuel with
  | zero => omega
  | succ f ih =>
    intro n ds h
    rw [Nat.toDigitsCore]
    by_cases h10 : n / 10 = 0
    · have hn : n < 10 := by
        rcases Nat.lt_or_ge n 10 with h' | h'
        · exact h'
        · exact absurd h10 (by
            have : 1 ≤ n / 10 := (Nat.le_div_iff_mul_le (by omega)).2 (by omega)
            omega)
      rw [reprSpecDigits]
      simp [h10, hn, Nat.mod_eq_of_lt hn]
    · have hn : 10 ≤ n := by
        rcases Nat.lt_or_ge n 10 with h' | h'
        · exact absurd (Nat.div_eq_of_lt h') h10
        · exact h'
      have hdiv : n / 10 < f := by
        have : n / 10 < n := Nat.div_lt_self (by omega) (by omega)
        omega
      simp only [h10, if_false]
      rw [ih (n / 10) _ hdiv]
      conv_rhs => rw [reprSpecDigits]
      simp [Nat.not_lt.2 hn, List.append_assoc]

lemma toDigits_eq_reprSpecDigits (n : Nat) :
    Nat.toDigits 10 n = reprSpecDigits n := by
  have := toDigitsCore_eq_reprSpecDigits (n + 1) n [] (Nat.lt_succ_self n)
  simpa [Nat.toDigits] using this

/-- Decimal value of one digit character. -/
def decodeDigit (c : Char) : Nat := c.toNat - 48

lemma decodeDigit_digitChar : ∀ d, d < 10 → decodeDigit (Nat.digitChar d) = d := by
  decide

/-- Decode a decimal digit list back to the number. -/
def decodeDigits (l : List Char) : Nat :=
  l.foldl (fun a c => a * 10 + decodeDigit c) 0

lemma decodeDigits_append_one (l : List Char) (c : Char) :
    decodeDigits (l ++ [c]) = decodeDigits l * 10 + decodeDigit c := by
  simp [decodeDigits, List.foldl_append]

lemma decodeDigits_reprSpecDigits (n : Nat) :
    decodeDigits (reprSpecDigits n) = n := by
  induction n using Nat.strong_induction_on with
  | _ n ih =>
    by_cases hn : n < 10
    · rw [reprSpecDigits]
      simp [hn, decodeDigits, decodeDigit_digitChar n hn]
    · rw [reprSpecDigits]
      have hd : n / 10 < n := Nat.div_lt_self (by omega) (by omega)
      simp only [hn, if_false]
      rw [decodeDigits_append_one, ih (n / 10) hd,
        decodeDigit_digitChar (n % 10) (Nat.mod_lt n (by omega))]
      omega

lemma reprSpecDigits_injective : Function.Injective reprSpecDigits := by
  intro m n h
  have hm := decodeDigits_reprSpecDigits m
  rw [h, decodeDigits_reprSpecDigits n] at hm
  exact hm.symm

lemma Nat_repr_injective : Function.Injective Nat.repr := by
  intro m n h
  apply reprSpecDigits_injective
  rw [← toDigits_eq_reprSpecDigits, ← toDigits_eq_reprSpecDigits]
  have : (Nat.toDigits 10 m).asString.data = (Nat.toDigits 10 n).asString.data := by
    rw [show (Nat.toDigits 10 m).asString = Nat.repr m from rfl,
        show (Nat.toDigits 10 n).asString = Nat.repr n from rfl, h]
  simpa [List.asString] using this

lemma qa_id_injective :
    Function.Injective (fun i : Nat => "qa_" ++ Nat.repr i) := by
  intro m n h
  apply Nat_repr_injective
  have h' : "qa_" ++ Nat.repr m = "qa_" ++ Nat.repr n := h
  have : ("qa_" ++ Nat.repr m).data = ("qa_" ++ Nat.repr n).data := by rw [h']
  simp only [String.data_append] at this
  have := List.append_cancel_left this
  exact String.ext this

namespace DataIngestion

lemma prepare_vectors_go_ok {α : Type} (embedCall : String → Except String (List α)) :
    ∀ (df : List Row) (k : Nat) (vs : List (Vector α)),
      prepare_vectors_go embedCall k df = Except.ok vs →
      vs.length = df.length ∧
      vs.map Vector.id = (List.range' k df.length).map (fun i => "qa_" ++ Nat.repr i) ∧
      ∀ i row, df.get? i = some row →
        ∃ e, embedCall row.Question = Except.ok e ∧
          vs.get? i = some ⟨"qa_" ++ Nat.repr (k + i), e, ⟨row.Question, row.Answer⟩⟩ := by
  intro df
  induction df with
  | nil =>
    intro k vs h
    simp only [prepare_vectors_go] at h
    cases h
    simp
  | cons row rest ih =>
    intro k vs h
    simp only [prepare_vectors_go, get_embeddings] at h
    cases he : embedCall row.Question with
    | error e => rw [he] at h; simp at h
    | ok emb =>
      rw [he] at h
      cases ht : prepare_vectors_go embedCall (k + 1) rest with
      | error e => rw [ht] at h; simp at h
      | ok tail =>
        rw [ht] at h
        simp only [Except.ok.injEq] at h
        obtain ⟨hlen, hids, hidx⟩ := ih (k + 1) tail ht
        subst h
        refine ⟨by simp [hlen], ?_, ?_⟩
        · simp only [List.length_cons]
          rw [List.range'_succ]
          simp [hids]
        · intro i r hr
          cases i with
          | zero =>
            simp only [List.get?] at hr
            cases hr
            exact ⟨emb, he, by simp⟩
          | succ j =>
            simp only [List.get?] at hr
            obtain ⟨e, hce, hv⟩ := hidx j r hr
            refine ⟨e, hce, ?_⟩
            simp only [List.get?]
            rw [hv]
            have : k + 1 + j = k + (j + 1) := by omega
            rw [this]

end DataIngestion

lemma query_pinecone_has_matches {α : Type}
    (idxQuery : List α → Nat → Except String QueryDict)
    (hidx : ∀ emb k r, idxQuery emb k = Except.ok r →
      (List.lookup "matches" r).isSome)
    (emb : List α) (k : Nat) :
    (List.lookup "matches" (App.query_pinecone idxQuery emb k)).isSome := by
  unfold App.query_pinecone
  cases h : idxQuery emb k with
  | ok r => exact hidx emb k r h
  | error e => rfl

lemma generate_response_some (genCall : String → Except String String)
    (input : String) (ctx : QueryDict)
    (h : (List.lookup "matches" ctx).isSome) :
    ∃ r, App.generate_response genCall input ctx = some r := by
  unfold App.generate_response
  cases hm : List.lookup "matches" ctx with
  | none => rw [hm] at h; simp at h
  | some ms =>
    cases hg : genCall (App.build_prompt input ms) with
    | ok t => exact ⟨t, by simp [hg]⟩
    | error e =>
      exact ⟨"Sorry, I couldn't process your request at this time.", by simp [hg]⟩

lemma prepare_vectors_go_agree {α : Type}
    (e1 e2 : String → Except String (List α)) :
    ∀ (df : List DataIngestion.Row) (k : Nat),
      (∀ r ∈ df, e1 r.Question = e2 r.Question) →
      DataIngestion.prepare_vectors_go e1 k df
        = DataIngestion.prepare_vectors_go e2 k df := by
  intro df
  induction df with
  | nil => intro k _; rfl
  | cons row rest ih =>
    intro k h
    simp only [DataIngestion.prepare_vectors_go, DataIngestion.get_embeddings]
    rw [h row (by simp), ih (k + 1) (fun r hr => h r (by simp [hr]))]

/-- C1 counterexample: the ingestion-time embedder in data_ingestion.py has
no try/except, so when the underlying embedding call raises, the exception
propagates to the caller instead of being reported and replaced by the
empty sequence. -/
theorem ingestion_embed_error_propagates :
    DataIngestion.get_embeddings
        (fun _ => (Except.error "boom" : Except String (List Nat))) "hello"
      = Except.error "boom" := rfl

/-- C1 amended: the query-time embedder in app.py never propagates the
exception — on an embedding error it returns the empty sequence, and when
the provider honours its fixed-dimension contract the returned vector is
never partial-length (it is empty or has exactly the configured dimension).
The ingestion-time embedder in data_ingestion.py, by contrast, returns the
provider's result unchanged, so an exception propagates to its caller. -/
theorem get_embeddings_soft_fail {α : Type} (dim : Nat)
    (embedCall : String → Except String (List α))
    (hdim : ∀ t v, embedCall t = Except.ok v → v.length = dim)
    (text : String) :
    (App.get_embeddings embedCall text = []
      ∨ (App.get_embeddings embedCall text).length = dim)
    ∧ (∀ e, embedCall text = Except.error e →
        App.get_embeddings embedCall text = [])
    ∧ DataIngestion.get_embeddings embedCall text = embedCall text := by
  refine ⟨?_, ?_, rfl⟩
  · unfold App.get_embeddings
    cases he : embedCall text with
    | ok v => exact Or.inr (hdim text v he)
    | error e => exact Or.inl rfl
  · intro e he
    unfold App.get_embeddings
    rw [he]

/-- Witness for the C1 amended theorem at a concrete provider returning a
vector of length 2 for every text. -/
theorem get_embeddings_soft_fail_witness :
    (App.get_embeddings (fun _ => (Except.ok [0, 1] : Except String (List Nat))) "t" = []
      ∨ (App.get_embeddings (fun _ => (Except.ok [0, 1] : Except String (List Nat))) "t").length = 2)
    ∧ (∀ e, (fun _ => (Except.ok [0, 1] : Except String (List Nat))) "t" = Except.error e →
        App.get_embeddings (fun _ => (Except.ok [0, 1] : Except String (List Nat))) "t" = [])
    ∧ DataIngestion.get_embeddings (fun _ => (Except.ok [0, 1] : Except String (List Nat))) "t"
        = (fun _ => (Except.ok [0, 1] : Except String (List Nat))) "t" :=
  get_embeddings_soft_fail 2 (fun _ => Except.ok [0, 1])
    (by intro t v h; cases h; rfl) "t"

/-- C5: index creation is idempotent — the second of two successive calls
never issues a create call and leaves the service state unchanged; a call
finding the name already present issues no create, a call not finding it
issues exactly one. -/
theorem create_pinecone_index_idempotent (s : List String) :
    (DataIngestion.create_pinecone_index (DataIngestion.create_pinecone_index s).1).2 = false
    ∧ (DataIngestion.create_pinecone_index (DataIngestion.create_pinecone_index s).1).1
        = (DataIngestion.create_pinecone_index s).1
    ∧ (DataIngestion.INDEX_NAME ∈ s →
        (DataIngestion.create_pinecone_index s).2 = false)
    ∧ (DataIngestion.INDEX_NAME ∉ s →
        (DataIngestion.create_pinecone_index s).2 = true) := by
  unfold DataIngestion.create_pinecone_index
  by_cases h : DataIngestion.INDEX_NAME ∈ s
  · simp [h]
  · simp [h]

/-- Witness for C5 at the empty service state: the first call creates, the
second does not. -/
theorem create_pinecone_index_idempotent_witness :
    (DataIngestion.create_pinecone_index (DataIngestion.create_pinecone_index []).1).2 = false
    ∧ (DataIngestion.create_pinecone_index ([] : List String)).2 = true :=
  ⟨(create_pinecone_index_idempotent []).1,
   (create_pinecone_index_idempotent []).2.2.2 (by decide)⟩

/-- C6: the prompt built by the answer generator contains the literal user
query text and the literal serialized match list verbatim as substrings. -/
theorem prompt_contains_query_and_context (input : String) (ms : List Match) :
    (∃ p q, App.build_prompt input ms = p ++ input ++ q)
    ∧ (∃ p q, App.build_prompt input ms = p ++ App.render_matches ms ++ q) := by
  constructor
  · refine ⟨"You are a customer support chatbot for UK Mega Shop. User query: ",
      ", Retrieved Context: " ++ App.render_matches ms
        ++ ". Now answer the user query using the context.", ?_⟩
    simp [App.build_prompt, String.append_assoc]
  · refine ⟨"You are a customer support chatbot for UK Mega Shop. User query: "
        ++ input ++ ", Retrieved Context: ",
      ". Now answer the user query using the context.", ?_⟩
    simp [App.build_prompt, String.append_assoc]

/-- C7: when the generation-model call raises, generate_response returns the
fixed apology string instead of propagating the exception. -/
theorem generation_failure_apology (err input : String) (ctx : QueryDict)
    (ms : List Match) (h : List.lookup "matches" ctx = some ms) :
    App.generate_response (fun _ => Except.error err) input ctx
      = some "Sorry, I couldn't process your request at this time." := by
  simp [App.generate_response, h]

/-- Witness for C7 at a concrete context holding an empty match list. -/
theorem generation_failure_apology_witness :
    App.generate_response (fun _ => Except.error "boom") "hi" [("matches", [])]
      = some "Sorry, I couldn't process your request at this time." :=
  generation_failure_apology "boom" "hi" [("matches", [])] [] rfl

/-- C2 counterexample: when the embedding step fails, app.py's `main` skips
the entire `if query_embedding:` block, so the user turn is appended but NO
assistant turn is appended for it — the turn does terminate early. -/
theorem embed_failure_skips_assistant_turn :
    App.processTurn (fun _ => (Except.error "down" : Except String (List Nat)))
        (fun _ _ => Except.ok [("matches", [])]) (fun _ => Except.ok "answer")
        [] "hi"
      = some [⟨"human", "hi"⟩]
    ∧ App.assistantCount [⟨"human", "hi"⟩] = 0 := ⟨rfl, rfl⟩

/-- C2 amended: after a user message is appended, exactly one assistant turn
is appended for it provided the embedding step returns a nonempty vector
(retrieval or generation failures do not prevent it, given an index whose
successful replies carry the "matches" key per its interface contract);
when the embedding step fails (empty vector), the user turn is appended but
no assistant turn is. -/
theorem turn_appends_exactly_one_assistant {α : Type}
    (embedCall : String → Except String (List α))
    (idxQuery : List α → Nat → Except String QueryDict)
    (genCall : String → Except String String)
    (msgs : List Turn) (input : String)
    (hidx : ∀ emb k r, idxQuery emb k = Except.ok r →
      (List.lookup "matches" r).isSome) :
    (App.get_embeddings embedCall input = [] →
      App.processTurn embedCall idxQuery genCall msgs input
        = some (msgs ++ [⟨"human", input⟩]))
    ∧ (App.get_embeddings embedCall input ≠ [] →
      ∃ r, App.processTurn embedCall idxQuery genCall msgs input
        = some (msgs ++ [⟨"human", input⟩, ⟨"ai", r⟩])) := by
  constructor
  · intro hempty
    unfold App.processTurn
    rw [hempty]
    simp
  · intro hne
    have hE : (App.get_embeddings embedCall input).isEmpty = false := by
      cases hv : App.get_embeddings embedCall input with
      | nil => exact absurd hv hne
      | cons a l => rfl
    obtain ⟨r, hr⟩ := generate_response_some genCall input
      (App.query_pinecone idxQuery (App.get_embeddings embedCall input) 2)
      (query_pinecone_has_matches idxQuery hidx _ 2)
    refine ⟨r, ?_⟩
    unfold App.processTurn
    simp [hE, hr]

/-- Witness for the C2 amended theorem at a concrete healthy pipeline. -/
theorem turn_appends_exactly_one_assistant_witness :
    ∃ r, App.processTurn (fun _ => (Except.ok [1] : Except String (List Nat)))
        (fun _ _ => Except.ok [("matches", [])]) (fun _ => Except.ok "resp")
        [] "hi"
      = some ([] ++ [⟨"human", "hi"⟩, ⟨"ai", r⟩]) :=
  (turn_appends_exactly_one_assistant
      (fun _ => (Except.ok [1] : Except String (List Nat)))
      (fun _ _ => Except.ok [("matches", [])]) (fun _ => Except.ok "resp")
      [] "hi" (by intro a b r hh; cases hh; rfl)).2 (by decide)

/-- C3: when the index query raises, the turn still invokes the generator
with the empty match set `{"matches": []}` and still appends exactly one
assistant turn — the turn is never terminated early by a retrieval
failure. -/
theorem retrieval_failure_degrades {α : Type}
    (embedCall : String → Except String (List α))
    (genCall : String → Except String String) (err : String)
    (msgs : List Turn) (input : String)
    (hne : App.get_embeddings embedCall input ≠ []) :
    ∃ r, App.generate_response genCall input [("matches", [])] = some r
      ∧ App.processTurn embedCall (fun _ _ => Except.error err) genCall msgs input
          = some (msgs ++ [⟨"human", input⟩, ⟨"ai", r⟩])
      ∧ App.assistantCount (msgs ++ [⟨"human", input⟩, ⟨"ai", r⟩])
          = App.assistantCount msgs + 1 := by
  have hE : (App.get_embeddings embedCall input).isEmpty = false := by
    cases hv : App.get_embeddings embedCall input with
    | nil => exact absurd hv hne
    | cons a l => rfl
  obtain ⟨r, hr⟩ := generate_response_some genCall input [("matches", [])] rfl
  have hq : App.query_pinecone
      (fun _ _ => (Except.error err : Except String QueryDict))
      (App.get_embeddings embedCall input) 2 = [("matches", [])] := rfl
  refine ⟨r, hr, ?_, ?_⟩
  · unfold App.processTurn
    simp [hE, hq, hr]
  · simp [App.assistantCount, List.filter_append, List.filter]

/-- Witness for C3 at a concrete pipeline whose index is down. -/
theorem retrieval_failure_degrades_witness :
    ∃ r, App.generate_response (fun _ => Except.ok "resp") "hi" [("matches", [])] = some r
      ∧ App.processTurn (fun _ => (Except.ok [1] : Except String (List Nat)))
          (fun _ _ => Except.error "down") (fun _ => Except.ok "resp") [] "hi"
          = some ([] ++ [⟨"human", "hi"⟩, ⟨"ai", r⟩])
      ∧ App.assistantCount ([] ++ [⟨"human", "hi"⟩, ⟨"ai", r⟩])
          = App.assistantCount [] + 1 :=
  retrieval_failure_degrades (fun _ => (Except.ok [1] : Except String (List Nat)))
    (fun _ => Except.ok "resp") "down" [] "hi" (by decide)

/-- C4: on a successful run, prepare_vectors yields exactly one record per
CSV row; the record for row i has id `"qa_" ++ i` and metadata equal to
that row's question/answer pair, and the ids are pairwise distinct. -/
theorem prepare_vectors_spec {α : Type}
    (embedCall : String → Except String (List α))
    (df : List DataIngestion.Row) (vs : List (DataIngestion.Vector α))
    (h : DataIngestion.prepare_vectors embedCall df = Except.ok vs) :
    vs.length = df.length
    ∧ (∀ i row, df.get? i = some row →
        ∃ e, vs.get? i
          = some ⟨"qa_" ++ Nat.repr i, e, ⟨row.Question, row.Answer⟩⟩)
    ∧ (vs.map DataIngestion.Vector.id).Nodup := by
  obtain ⟨hlen, hids, hidx⟩ :=
    DataIngestion.prepare_vectors_go_ok embedCall df 0 vs h
  refine ⟨hlen, ?_, ?_⟩
  · intro i row hrow
    obtain ⟨e, _, hv⟩ := hidx i row hrow
    refine ⟨e, ?_⟩
    simpa using hv
  · rw [hids]
    exact List.Nodup.map qa_id_injective (List.nodup_range' 0 df.length)

/-- Witness for C4 on a concrete 2-row CSV and a constant embedder. -/
theorem prepare_vectors_spec_witness :
    ([⟨"qa_0", [0], ⟨"q0", "a0"⟩⟩,
      ⟨"qa_1", [0], ⟨"q1", "a1"⟩⟩] : List (DataIngestion.Vector Nat)).length
        = ([⟨"q0", "a0"⟩, ⟨"q1", "a1"⟩] : List DataIngestion.Row).length
    ∧ (∀ i row,
        ([⟨"q0", "a0"⟩, ⟨"q1", "a1"⟩] : List DataIngestion.Row).get? i = some row →
        ∃ e, ([⟨"qa_0", [0], ⟨"q0", "a0"⟩⟩,
               ⟨"qa_1", [0], ⟨"q1", "a1"⟩⟩] : List (DataIngestion.Vector Nat)).get? i
          = some ⟨"qa_" ++ Nat.repr i, e, ⟨row.Question, row.Answer⟩⟩)
    ∧ (([⟨"qa_0", [0], ⟨"q0", "a0"⟩⟩,
         ⟨"qa_1", [0], ⟨"q1", "a1"⟩⟩] : List (DataIngestion.Vector Nat)).map
          DataIngestion.Vector.id).Nodup :=
  prepare_vectors_spec (fun _ => Except.ok [0])
    [⟨"q0", "a0"⟩, ⟨"q1", "a1"⟩]
    [⟨"qa_0", [0], ⟨"q0", "a0"⟩⟩, ⟨"qa_1", [0], ⟨"q1", "a1"⟩⟩] rfl

/-- C8 counterexample: the literal role strings stored by app.py are
`"human"` and `"ai"`, not `"user"` and `"assistant"` — the very first seed
turn's role is `"human"`, which is neither of the two values the claim
names. -/
theorem seed_turn_role_literal :
    (App.initial_messages.get? 0).map Turn.role = some "human"
    ∧ "human" ≠ "user" ∧ "human" ≠ "assistant" :=
  ⟨rfl, by decide, by decide⟩

/-- C8 amended: every turn in the conversation log — the canned seed pair
and every turn appended by a processed user turn — has one of exactly two
roles: `"human"` (the code's encoding of the user role) or `"ai"` (its
encoding of the assistant role). -/
theorem conversation_roles_invariant {α : Type}
    (embedCall : String → Except String (List α))
    (idxQuery : List α → Nat → Except String QueryDict)
    (genCall : String → Except String String)
    (msgs log : List Turn) (input : String)
    (hmsgs : ∀ t ∈ msgs, App.roleOk t)
    (hrun : App.processTurn embedCall idxQuery genCall msgs input = some log) :
    (∀ t ∈ App.initial_messages, App.roleOk t) ∧ ∀ t ∈ log, App.roleOk t := by
  refine ⟨by decide, ?_⟩
  unfold App.processTurn at hrun
  by_cases hE : (App.get_embeddings embedCall input).isEmpty
  · simp only [hE, if_true] at hrun
    cases hrun
    intro t ht
    rcases List.mem_append.1 ht with h | h
    · exact hmsgs t h
    · rw [List.mem_singleton.1 h]
      exact Or.inl rfl
  · simp only [hE, if_false, Bool.false_eq_true] at hrun
    cases hg : App.generate_response genCall input
        (App.query_pinecone idxQuery (App.get_embeddings embedCall input) 2) with
    | none => rw [hg] at hrun; simp at hrun
    | some r =>
      rw [hg] at hrun
      simp only [Option.some.injEq] at hrun
      subst hrun
      intro t ht
      rcases List.mem_append.1 ht with h | h
      · rcases List.mem_append.1 h with h' | h'
        · exact hmsgs t h'
        · rw [List.mem_singleton.1 h']
          exact Or.inl rfl
      · rw [List.mem_singleton.1 h]
        exact Or.inr rfl

/-- Witness for the C8 amended theorem at a concrete healthy turn. -/
theorem conversation_roles_invariant_witness :
    (∀ t ∈ App.initial_messages, App.roleOk t)
    ∧ ∀ t ∈ ([⟨"human", "hi"⟩, ⟨"ai", "resp"⟩] : List Turn), App.roleOk t :=
  conversation_roles_invariant
    (fun _ => (Except.ok [1] : Except String (List Nat)))
    (fun _ _ => Except.ok [("matches", [])]) (fun _ => Except.ok "resp")
    [] [⟨"human", "hi"⟩, ⟨"ai", "resp"⟩] "hi" (by decide) rfl

/-- C9: query_pinecone's result carries the `"matches"` key on every path —
the index's contract-honouring reply on success, the literal
`{"matches": []}` on failure — so generate_response's `context["matches"]`
access never raises on a result produced by query_pinecone. -/
theorem query_result_always_has_matches {α : Type}
    (idxQuery : List α → Nat → Except String QueryDict)
    (hidx : ∀ emb k r, idxQuery emb k = Except.ok r →
      (List.lookup "matches" r).isSome)
    (emb : List α) (k : Nat)
    (genCall : String → Except String String) (input : String) :
    (List.lookup "matches" (App.query_pinecone idxQuery emb k)).isSome
    ∧ (App.generate_response genCall input
        (App.query_pinecone idxQuery emb k)).isSome := by
  have h := query_pinecone_has_matches idxQuery hidx emb k
  refine ⟨h, ?_⟩
  obtain ⟨r, hr⟩ := generate_response_some genCall input _ h
  rw [hr]
  rfl

/-- Witness for C9 at a concrete index that is down. -/
theorem query_result_always_has_matches_witness :
    (List.lookup "matches"
      (App.query_pinecone (fun _ _ => (Except.error "down" : Except String QueryDict)) [1] 2)).isSome
    ∧ (App.generate_response (fun _ => Except.ok "resp") "hi"
        (App.query_pinecone (fun _ _ => (Except.error "down" : Except String QueryDict))
          ([1] : List Nat) 2)).isSome :=
  query_result_always_has_matches
    (fun _ _ => (Except.error "down" : Except String QueryDict))
    (by intro a b r hh; cases hh) [1] 2 (fun _ => Except.ok "resp") "hi"

/-- C10: during ingestion only each row's Question text is ever passed to
the embedder — two embedders agreeing on the Question texts yield the same
prepared vectors — and on success each record's stored vector is exactly
the embedder's output on that row's Question, while the Answer is stored
only in the record's metadata. -/
theorem ingestion_embeds_question_only {α : Type}
    (e1 e2 : String → Except String (List α)) (df : List DataIngestion.Row)
    (hagree : ∀ r ∈ df, e1 r.Question = e2 r.Question) :
    DataIngestion.prepare_vectors e1 df = DataIngestion.prepare_vectors e2 df
    ∧ ∀ vs, DataIngestion.prepare_vectors e1 df = Except.ok vs →
        ∀ i row, df.get? i = some row →
          ∃ e, e1 row.Question = Except.ok e
            ∧ vs.get? i = some ⟨"qa_" ++ Nat.repr i, e, ⟨row.Question, row.Answer⟩⟩ := by
  constructor
  · exact prepare_vectors_go_agree e1 e2 df 0 hagree
  · intro vs h i row hrow
    obtain ⟨_, _, hidx⟩ := DataIngestion.prepare_vectors_go_ok e1 df 0 vs h
    obtain ⟨e, hce, hv⟩ := hidx i row hrow
    exact ⟨e, hce, by simpa using hv⟩

/-- Witness for C10: two embedders that differ away from the Question texts
produce identical vector records on a concrete 1-row CSV. -/
theorem ingestion_embeds_question_only_witness :
    DataIngestion.prepare_vectors
        (fun t => if t = "q0" then Except.ok [7] else Except.ok [1])
        ([⟨"q0", "a0"⟩] : List DataIngestion.Row)
      = DataIngestion.prepare_vectors
        (fun t => if t = "q0" then Except.ok [7] else Except.ok ([2] : List Nat))
        ([⟨"q0", "a0"⟩] : List DataIngestion.Row)
    ∧ ∀ vs, DataIngestion.prepare_vectors
        (fun t => if t = "q0" then Except.ok [7] else Except.ok ([1] : List Nat))
        ([⟨"q0", "a0"⟩] : List DataIngestion.Row) = Except.ok vs →
        ∀ i row, ([⟨"q0", "a0"⟩] : List DataIngestion.Row).get? i = some row →
          ∃ e, (fun t => if t = "q0" then (Except.ok [7] : Except String (List Nat))
                else Except.ok [1]) row.Question
              = Except.ok e
            ∧ vs.get? i = some ⟨"qa_" ++ Nat.repr i, e, ⟨row.Question, row.Answer⟩⟩ :=
  ingestion_embeds_question_only
    (fun t => if t = "q0" then Except.ok [7] else Except.ok [1])
    (fun t => if t = "q0" then Except.ok [7] else Except.ok [2])
    [⟨"q0", "a0"⟩] (by intro r hr; simp at hr; subst hr; simp)

end ChatBotRAG
